import Mathlib

/-!
Shallow embedding of the `sqlast` query-rendering core of `isgasho/xsqlparser`
(`src/sqlast/query.go`), together with theorems checking the natural-language
specification against it.

Expression-level nodes, identifiers, object names and the `commaSeparatedString`
helper are defined outside the given source files; following the spec they are
modelled as opaque renderables / plain strings (each such definition carries a
`Modelled from the spec:` doc comment).
-/

namespace Sqlast

/-- Modelled from the spec: the external renderable-expression abstraction
(`ASTNode` in the Go source, defined outside `query.go`). The core treats
these as opaque values implementing only "render to text", so an `ASTNode`
is modelled by the text its `Eval` produces. -/
structure ASTNode where
  render : String
deriving DecidableEq

/-- Modelled from the spec: an opaque node renders to its text. -/
def ASTNode.Eval (n : ASTNode) : String := n.render

/-- Modelled from the spec: `SQLIdent` (defined outside `query.go`) is a name
string; `Identifier.render()` returns the identifier's name verbatim. -/
abbrev SQLIdent := String

/-- Modelled from the spec: `Identifier.render()` returns the name verbatim. -/
def SQLIdent.Eval (s : SQLIdent) : String := s

/-- Modelled from the spec: `SQLObjectName` (defined outside `query.go`) is an
ordered sequence of identifiers. -/
abbrev SQLObjectName := List SQLIdent

/-- Modelled from the spec (Go stdlib `strings.Join`): concatenates the
elements of the list placing the separator between consecutive elements. -/
def joinSep (sep : String) : List String → String
  | [] => ""
  | [x] => x
  | x :: y :: xs => x ++ sep ++ joinSep sep (y :: xs)

/-- Modelled from the spec: `ObjectName.render()` returns its identifier
segments joined by `.`. -/
def SQLObjectName.Eval (n : SQLObjectName) : String :=
  joinSep "." n

/-- Modelled from the spec: the shared helper `commaSeparatedString` (defined
outside `query.go`) joins the rendered elements with `", "` (comma-space). It
is modelled on the already-rendered texts. -/
def commaSeparatedString (xs : List String) : String :=
  joinSep ", " xs

/-- `type JoinOperator int` (`query.go`). -/
abbrev JoinOperator := Int

/-- `Inner JoinOperator = iota` (`query.go`). -/
def Inner : JoinOperator := 0

/-- `LeftOuter` (`query.go`). -/
def LeftOuter : JoinOperator := 1

/-- `RightOuter` (`query.go`). -/
def RightOuter : JoinOperator := 2

/-- `FullOuter` (`query.go`). -/
def FullOuter : JoinOperator := 3

/-- `Implicit` (`query.go`). -/
def Implicit : JoinOperator := 4

/-- `Cross` (`query.go`). -/
def Cross : JoinOperator := 5

/-- `SQLSetOperator`: implemented by `UnionOperator`, `ExceptOperator`,
`IntersectOperator` (`query.go`). -/
inductive SQLSetOperator where
  | UnionOperator
  | ExceptOperator
  | IntersectOperator
deriving DecidableEq

/-- `Eval` of the three set operators (`query.go`). -/
def SQLSetOperator.Eval : SQLSetOperator → String
  | .UnionOperator => "UNION"
  | .ExceptOperator => "EXCEPT"
  | .IntersectOperator => "INTERSECT"

/-- `JoinConstant`: implemented by `OnJoinConstant`, `UsingConstant`,
`NaturalConstant` (`query.go`). -/
inductive JoinConstant where
  | OnJoinConstant (Node : ASTNode)
  | UsingConstant (Idents : List SQLIdent)
  | NaturalConstant
deriving DecidableEq

/-- The `Prefix()` methods of the three join constants (`query.go`). -/
def JoinConstant.Prefix : JoinConstant → String
  | .OnJoinConstant _ => ""
  | .UsingConstant _ => ""
  | .NaturalConstant => "NATURAL "

/-- The `Suffix()` methods of the three join constants (`query.go`).
`UsingConstant.Suffix` converts each ident to its string and joins with
`", "`. -/
def JoinConstant.Suffix : JoinConstant → String
  | .OnJoinConstant n => " ON " ++ n.Eval
  | .UsingConstant ids => " USING(" ++ joinSep ", " ids ++ ")"
  | .NaturalConstant => ""

/-- `SQLSelectItem`: implemented by `UnnamedExpression`, `ExpressionWithAlias`,
`QualifiedWildcard`, `Wildcard` (`query.go`). -/
inductive SQLSelectItem where
  | UnnamedExpression (Node : ASTNode)
  | ExpressionWithAlias (Expr : ASTNode) (Alias : SQLIdent)
  | QualifiedWildcard (Pre : SQLObjectName)
  | Wildcard
deriving DecidableEq

/-- `Eval` of the four select items (`query.go`). -/
def SQLSelectItem.Eval : SQLSelectItem → String
  | .UnnamedExpression n => n.Eval
  | .ExpressionWithAlias e a => e.Eval ++ " AS " ++ a.Eval
  | .QualifiedWildcard p => p.Eval ++ ".*"
  | .Wildcard => "*"

/-- `SQLOrderByExpr` (`query.go`): expression plus `ASC *bool`
(`none` = unset, `some true` = ASC, `some false` = DESC). -/
inductive SQLOrderByExpr where
  | mk (Expr : ASTNode) (ASC : Option Bool)
deriving DecidableEq

/-- `SQLOrderByExpr.Eval` (`query.go`). -/
def SQLOrderByExpr.Eval : SQLOrderByExpr → String
  | .mk e none => e.Eval
  | .mk e (some true) => e.Eval ++ " ASC"
  | .mk e (some false) => e.Eval ++ " DESC"

/-- The Go pattern `if node != nil { q += "<keyword> " + node.Eval() }` for an
optional opaque node (used for `Selection`, `Having` and `Limit` in
`query.go`): renders the keyword followed by the node when present,
and nothing when absent. -/
def evalOptNode (pre : String) : Option ASTNode → String
  | some n => pre ++ n.Eval
  | none => ""

mutual

/-- `SQLQuery` (`query.go`): CTE list, body, order-by list, optional limit. -/
inductive SQLQuery where
  | mk (CTEs : List CTE) (Body : SQLSetExpr) (OrderBy : List SQLOrderByExpr)
       (Limit : Option ASTNode)

/-- `CTE` (`query.go`): alias identifier plus query. -/
inductive CTE where
  | mk (Alias : SQLIdent) (Query : SQLQuery)

/-- `SQLSetExpr`: implemented by `SelectExpr`, `QueryExpr`,
`SetOperationExpr` (`query.go`). -/
inductive SQLSetExpr where
  | SelectExpr (Select : SQLSelect)
  | QueryExpr (Query : SQLQuery)
  | SetOperationExpr (Op : SQLSetOperator) (All : Bool)
      (Left : SQLSetExpr) (Right : SQLSetExpr)

/-- `SQLSelect` (`query.go`). `Relation` and the predicate slots are nullable
pointers in Go, modelled as `Option`. -/
inductive SQLSelect where
  | mk (Distinct : Bool) (Projection : List SQLSelectItem)
       (Relation : Option TableFactor) (Joins : List Join)
       (Selection : Option ASTNode) (GroupBy : List ASTNode)
       (Having : Option ASTNode)

/-- `TableFactor`: implemented by `Table` and `Derived` (`query.go`). -/
inductive TableFactor where
  | Table (Name : SQLObjectName) (Alias : Option SQLIdent)
      (Args : List ASTNode) (WithHints : List ASTNode)
  | Derived (SubQuery : SQLQuery) (Alias : Option SQLIdent)

/-- `Join` (`query.go`): relation, operator, constant. -/
inductive Join where
  | mk (Relation : TableFactor) (Op : JoinOperator) (Constant : JoinConstant)

end

mutual

/-- `SQLQuery.Eval` (`query.go` lines 15–38). -/
def SQLQuery.Eval : SQLQuery → String
  | .mk ctes body orderBy limit =>
    (if ctes.length ≠ 0 then
      "WITH " ++ joinSep ", " (evalCTEs ctes) ++ " "
    else "")
    ++ SQLSetExpr.Eval body
    ++ (if orderBy.length ≠ 0 then
        " ORDER BY " ++ commaSeparatedString (orderBy.map SQLOrderByExpr.Eval)
      else "")
    ++ evalOptNode " LIMIT " limit

/-- The loop in `SQLQuery.Eval` that renders each CTE as
`"<alias> AS (<query>)"` and collects the strings (`query.go` lines 20–23). -/
def evalCTEs : List CTE → List String
  | [] => []
  | .mk al q :: cs => (al.Eval ++ " AS (" ++ SQLQuery.Eval q ++ ")") :: evalCTEs cs

/-- `Eval` of the three `SQLSetExpr` variants (`query.go` lines 54–79). -/
def SQLSetExpr.Eval : SQLSetExpr → String
  | .SelectExpr s => SQLSelect.Eval s
  | .QueryExpr q => "(" ++ SQLQuery.Eval q ++ ")"
  | .SetOperationExpr op all l r =>
    SQLSetExpr.Eval l ++ " " ++ op.Eval ++ (if all then " ALL" else "")
      ++ " " ++ SQLSetExpr.Eval r

/-- `SQLSelect.Eval` (`query.go` lines 118–146). -/
def SQLSelect.Eval : SQLSelect → String
  | .mk distinct projection relation joins selection groupBy having =>
    evalJoins
      ("SELECT " ++ (if distinct then "DISTINCT " else "")
        ++ commaSeparatedString (projection.map SQLSelectItem.Eval)
        ++ evalRelation relation)
      joins
    ++ evalOptNode " WHERE " selection
    ++ (if groupBy.length ≠ 0 then
        " GROUP BY " ++ commaSeparatedString (groupBy.map ASTNode.Eval)
      else "")
    ++ evalOptNode " HAVING " having

/-- The Go pattern `if s.Relation != nil { q += " FROM " + s.Relation.Eval() }`
(`query.go` lines 125–127). -/
def evalRelation : Option TableFactor → String
  | some r => " FROM " ++ TableFactor.Eval r
  | none => ""

/-- The loop in `SQLSelect.Eval` appending each join's render to the
accumulated string (`query.go` lines 129–131). -/
def evalJoins : String → List Join → String
  | acc, [] => acc
  | acc, j :: js => evalJoins (acc ++ Join.Eval j) js

/-- `Eval` of the two `TableFactor` variants (`query.go` lines 160–185). -/
def TableFactor.Eval : TableFactor → String
  | .Table name al args withHints =>
    (fun s₂ =>
      (fun s₁ =>
        (if withHints.length ≠ 0 then
          s₁ ++ " WITH (" ++ commaSeparatedString (withHints.map ASTNode.Eval) ++ ")"
        else s₁))
      (match al with
        | some a => s₂ ++ " AS " ++ a.Eval
        | none => s₂))
    (if args.length ≠ 0 then
      name.Eval ++ "(" ++ commaSeparatedString (args.map ASTNode.Eval) ++ ")"
    else name.Eval)
  | .Derived subQuery al =>
    (fun s =>
      match al with
      | some a => s ++ " AS " ++ a.Eval
      | none => s)
    (SQLQuery.Eval subQuery)

/-- `Join.Eval` (`query.go` lines 234–251): the `switch` on the operator,
in source order, defaulting to the empty string. -/
def Join.Eval : Join → String
  | .mk rel op c =>
    if op = Inner then
      " " ++ c.Prefix ++ "JOIN " ++ TableFactor.Eval rel ++ c.Suffix
    else if op = Cross then
      " CROSS JOIN" ++ TableFactor.Eval rel
    else if op = Implicit then
      ", " ++ TableFactor.Eval rel
    else if op = LeftOuter then
      " " ++ c.Prefix ++ "LEFT JOIN " ++ TableFactor.Eval rel ++ c.Suffix
    else if op = RightOuter then
      " " ++ c.Prefix ++ "RIGHT JOIN " ++ TableFactor.Eval rel ++ c.Suffix
    else if op = FullOuter then
      " " ++ c.Prefix ++ "FULL JOIN " ++ TableFactor.Eval rel ++ c.Suffix
    else ""

end

/-! ## Derived forms of the renderer used when stating the specification -/

/-- One CTE rendered as `"<alias> AS (<query>)"`, as the spec words it. -/
def renderCTE : CTE → String
  | .mk al q => al.Eval ++ " AS (" ++ q.Eval ++ ")"

/-- Concatenation of a list of strings in list order with no separator. -/
def concatAll : List String → String
  | [] => ""
  | s :: ss => s ++ concatAll ss

theorem evalCTEs_eq_map (cs : List CTE) : evalCTEs cs = cs.map renderCTE := by
  induction cs with
  | nil => rw [evalCTEs]; rfl
  | cons c cs ih => cases c; rw [evalCTEs, ih]; rfl

theorem evalJoins_eq (acc : String) (js : List Join) :
    evalJoins acc js = acc ++ concatAll (js.map Join.Eval) := by
  induction js generalizing acc with
  | nil => simp [evalJoins, concatAll]
  | cons j js ih => simp [evalJoins, concatAll, ih, String.append_assoc]

/-! ## Claim theorems -/

theorem select_eval_unfold (d : Bool) (proj : List SQLSelectItem)
    (rel : Option TableFactor) (joins : List Join) (sel : Option ASTNode)
    (gb : List ASTNode) (hav : Option ASTNode) :
    (SQLSelect.mk d proj rel joins sel gb hav).Eval =
      "SELECT "
      ++ (if d then "DISTINCT " else "")
      ++ joinSep ", " (proj.map SQLSelectItem.Eval)
      ++ (match rel with | some r => " FROM " ++ r.Eval | none => "")
      ++ concatAll (joins.map Join.Eval)
      ++ (match sel with | some p => " WHERE " ++ p.Eval | none => "")
      ++ (if gb ≠ [] then " GROUP BY " ++ joinSep ", " (gb.map ASTNode.Eval) else "")
      ++ (match hav with | some h => " HAVING " ++ h.Eval | none => "") := by
  rw [SQLSelect.Eval, evalJoins_eq]
  rcases gb with _ | ⟨g, gs⟩ <;> rcases sel with _ | p <;> rcases hav with _ | h <;>
    rcases rel with _ | r <;>
    simp [commaSeparatedString, evalOptNode, evalRelation, String.append_assoc]

/-- C1: for every `SQLSelect`, `Eval` returns exactly `"SELECT "`, then
`"DISTINCT "` iff `Distinct` is true, then the projection items
comma-space-joined, then `" FROM <relation>"` iff `Relation` is present, then
each `Join`'s render concatenated in list order with no extra separator, then
`" WHERE <predicate>"` iff `Selection` is present, then
`" GROUP BY <exprs comma-space-joined>"` iff `GroupBy` is non-empty, then
`" HAVING <predicate>"` iff `Having` is present, and nothing else. -/
theorem C1_select_render (d : Bool) (proj : List SQLSelectItem)
    (rel : Option TableFactor) (joins : List Join) (sel : Option ASTNode)
    (gb : List ASTNode) (hav : Option ASTNode) :
    (SQLSelect.mk d proj rel joins sel gb hav).Eval =
      "SELECT "
      ++ (if d then "DISTINCT " else "")
      ++ joinSep ", " (proj.map SQLSelectItem.Eval)
      ++ (match rel with | some r => " FROM " ++ r.Eval | none => "")
      ++ concatAll (joins.map Join.Eval)
      ++ (match sel with | some p => " WHERE " ++ p.Eval | none => "")
      ++ (if gb ≠ [] then " GROUP BY " ++ joinSep ", " (gb.map ASTNode.Eval) else "")
      ++ (match hav with | some h => " HAVING " ++ h.Eval | none => "") :=
  select_eval_unfold d proj rel joins sel gb hav

/-- C2: for every `SQLQuery`, `Eval` returns exactly: when `CTEs` is
non-empty, `"WITH "` followed by the CTEs rendered `"<alias> AS (<query>)"`
comma-space-joined and then exactly one space; then the body's render; then
`" ORDER BY <exprs comma-space-joined>"` iff `OrderBy` is non-empty; then
`" LIMIT <expr>"` iff `Limit` is present. -/
theorem C2_query_render (ctes : List CTE) (body : SQLSetExpr)
    (ob : List SQLOrderByExpr) (lim : Option ASTNode) :
    (SQLQuery.mk ctes body ob lim).Eval =
      (match ctes with
        | [] => ""
        | c :: cs => "WITH " ++ joinSep ", " ((c :: cs).map renderCTE) ++ " ")
      ++ body.Eval
      ++ (if ob ≠ [] then " ORDER BY " ++ joinSep ", " (ob.map SQLOrderByExpr.Eval) else "")
      ++ (match lim with | some l => " LIMIT " ++ l.Eval | none => "") := by
  rw [SQLQuery.Eval, evalCTEs_eq_map]
  rcases ctes with _ | ⟨c, cs⟩ <;> rcases ob with _ | ⟨o, os⟩ <;> rcases lim with _ | l <;>
    simp [commaSeparatedString, evalOptNode, String.append_assoc]

/-- C5: for every `SetOperationExpr` with `All = true`, `Eval` renders the
left operand, one space, the operator token, one space, `"ALL"`, one space,
and the right operand — so the operator and `ALL` are separated by exactly
one space and each operand is separated from them by exactly one space. -/
theorem C5_set_operation_all (op : SQLSetOperator) (l r : SQLSetExpr) :
    (SQLSetExpr.SetOperationExpr op true l r).Eval =
      l.Eval ++ " " ++ op.Eval ++ " ALL" ++ " " ++ r.Eval := by
  simp [SQLSetExpr.Eval]

/-- C6: for every `SQLQuery` with empty `CTEs`, empty `OrderBy` and absent
`Limit`, `Eval` returns exactly the body's render, with nothing added. -/
theorem C6_bare_query (body : SQLSetExpr) :
    (SQLQuery.mk [] body [] none).Eval = body.Eval := by
  simp [SQLQuery.Eval, evalOptNode]

/-- C7: `SQLOrderByExpr.Eval` returns the bare expression when the direction
is unset, appends `" ASC"` when it is `some true`, and appends `" DESC"` when
it is `some false`. -/
theorem C7_order_by_direction (e : ASTNode) :
    (SQLOrderByExpr.mk e none).Eval = e.Eval
    ∧ (SQLOrderByExpr.mk e (some true)).Eval = e.Eval ++ " ASC"
    ∧ (SQLOrderByExpr.mk e (some false)).Eval = e.Eval ++ " DESC" := by
  exact ⟨rfl, rfl, rfl⟩

/-- C3: `Join.Eval` follows the operator dispatch table — `Inner`,
`LeftOuter`, `RightOuter` and `FullOuter` render
`" <prefix>[LEFT |RIGHT |FULL ]JOIN <relation><suffix>"`, where the join
constant contributes `"NATURAL "`/empty for `Natural`, empty/`" ON <pred>"`
for `On` and empty/`" USING(<cols comma-space-joined>)"` for `Using`;
`Implicit` renders `", <relation>"`; `Cross` renders `" CROSS JOIN<relation>"`
with no space before the relation. -/
theorem C3_join_dispatch (rel : TableFactor) (c : JoinConstant) (n : ASTNode)
    (ids : List SQLIdent) :
    (Join.mk rel Inner c).Eval = " " ++ c.Prefix ++ "JOIN " ++ rel.Eval ++ c.Suffix
    ∧ (Join.mk rel LeftOuter c).Eval = " " ++ c.Prefix ++ "LEFT JOIN " ++ rel.Eval ++ c.Suffix
    ∧ (Join.mk rel RightOuter c).Eval = " " ++ c.Prefix ++ "RIGHT JOIN " ++ rel.Eval ++ c.Suffix
    ∧ (Join.mk rel FullOuter c).Eval = " " ++ c.Prefix ++ "FULL JOIN " ++ rel.Eval ++ c.Suffix
    ∧ JoinConstant.NaturalConstant.Prefix = "NATURAL "
    ∧ JoinConstant.NaturalConstant.Suffix = ""
    ∧ (JoinConstant.OnJoinConstant n).Prefix = ""
    ∧ (JoinConstant.OnJoinConstant n).Suffix = " ON " ++ n.Eval
    ∧ (JoinConstant.UsingConstant ids).Prefix = ""
    ∧ (JoinConstant.UsingConstant ids).Suffix = " USING(" ++ joinSep ", " ids ++ ")"
    ∧ (Join.mk rel Implicit c).Eval = ", " ++ rel.Eval
    ∧ (Join.mk rel Cross c).Eval = " CROSS JOIN" ++ rel.Eval := by
  refine ⟨?_, ?_, ?_, ?_, rfl, rfl, rfl, rfl, rfl, rfl, ?_, ?_⟩ <;>
    rw [Join.Eval] <;>
    simp [Inner, LeftOuter, RightOuter, FullOuter, Implicit, Cross]

/-- C8: two `Join` values whose operator is `Cross` or `Implicit` that agree
on `Relation` and `Op` but carry different join constants render identically:
the constant is never consulted for those operators. -/
theorem C8_constant_ignored (rel : TableFactor) (op : JoinOperator)
    (c₁ c₂ : JoinConstant) (h : op = Cross ∨ op = Implicit) :
    (Join.mk rel op c₁).Eval = (Join.mk rel op c₂).Eval := by
  rcases h with h | h <;> subst h <;>
    rw [Join.Eval, Join.Eval] <;> simp [Inner, Cross, Implicit]

/-- C8 witness: a concrete `Cross` join rendered with an `ON` constant and
with a `NATURAL` constant gives the same output. -/
theorem C8_constant_ignored_witness :
    ((Cross : JoinOperator) = Cross ∨ (Cross : JoinOperator) = Implicit)
    ∧ (Join.mk (.Table ["t"] none [] []) Cross (.OnJoinConstant ⟨"p"⟩)).Eval
      = (Join.mk (.Table ["t"] none [] []) Cross .NaturalConstant).Eval :=
  ⟨Or.inl rfl,
    C8_constant_ignored (.Table ["t"] none [] []) Cross
      (.OnJoinConstant ⟨"p"⟩) .NaturalConstant (Or.inl rfl)⟩

/-- C9: a `Join` whose `Op` is any `JoinOperator` value other than the six
defined constants renders to the empty string (the `switch` default). -/
theorem C9_unknown_operator (rel : TableFactor) (c : JoinConstant)
    (op : JoinOperator) (h1 : op ≠ Inner) (h2 : op ≠ LeftOuter)
    (h3 : op ≠ RightOuter) (h4 : op ≠ FullOuter) (h5 : op ≠ Implicit)
    (h6 : op ≠ Cross) :
    (Join.mk rel op c).Eval = "" := by
  rw [Join.Eval]
  simp [h1, h2, h3, h4, h5, h6]

/-- C9 witness: operator value `6`, which is none of the six constants,
renders the join as the empty string. -/
theorem C9_unknown_operator_witness :
    (6 : JoinOperator) ≠ Inner ∧ (6 : JoinOperator) ≠ LeftOuter
    ∧ (6 : JoinOperator) ≠ RightOuter ∧ (6 : JoinOperator) ≠ FullOuter
    ∧ (6 : JoinOperator) ≠ Implicit ∧ (6 : JoinOperator) ≠ Cross
    ∧ (Join.mk (.Table ["t"] none [] []) 6 .NaturalConstant).Eval = "" :=
  ⟨by decide, by decide, by decide, by decide, by decide, by decide,
    C9_unknown_operator (.Table ["t"] none [] []) .NaturalConstant 6
      (by decide) (by decide) (by decide) (by decide) (by decide) (by decide)⟩

/-- C10: a `SQLSelect` with absent `Relation` and non-empty `Joins` still
renders: no `FROM` clause is emitted and the joins' renders follow the
projection list directly. -/
theorem C10_joins_without_relation (d : Bool) (proj : List SQLSelectItem)
    (joins : List Join) (sel : Option ASTNode) (gb : List ASTNode)
    (hav : Option ASTNode) (_hj : joins ≠ []) :
    (SQLSelect.mk d proj none joins sel gb hav).Eval =
      "SELECT "
      ++ (if d then "DISTINCT " else "")
      ++ joinSep ", " (proj.map SQLSelectItem.Eval)
      ++ concatAll (joins.map Join.Eval)
      ++ (match sel with | some p => " WHERE " ++ p.Eval | none => "")
      ++ (if gb ≠ [] then " GROUP BY " ++ joinSep ", " (gb.map ASTNode.Eval) else "")
      ++ (match hav with | some h => " HAVING " ++ h.Eval | none => "") := by
  rw [select_eval_unfold]
  simp

/-! ## Occurrence analysis for the `ALL` token (claim C4) -/

theorem preSplitAppend {α : Type} {t b : List α} :
    ∀ a : List α, t <+: a ++ b → t <+: a ∨ ∃ t₂, t = a ++ t₂ ∧ t₂ <+: b := by
  intro a
  induction a generalizing t with
  | nil => intro h; exact Or.inr ⟨t, rfl, h⟩
  | cons x a ih =>
    intro h
    rcases t with _ | ⟨y, t'⟩
    · exact Or.inl ⟨x :: a, rfl⟩
    · obtain ⟨v, hv⟩ := h
      injection hv with h1 h2
      subst h1
      rcases ih ⟨v, h2⟩ with h' | ⟨t₂, rfl, h₂⟩
      · obtain ⟨w, hw⟩ := h'
        exact Or.inl ⟨w, by simp [hw]⟩
      · exact Or.inr ⟨t₂, rfl, h₂⟩

theorem occSplitAppend {α : Type} {t b : List α} :
    ∀ a : List α, t <:+: a ++ b →
      t <:+: a ∨ t <:+: b ∨
        ∃ t₁ t₂, t = t₁ ++ t₂ ∧ t₁ ≠ [] ∧ t₂ ≠ [] ∧ t₁ <:+ a ∧ t₂ <+: b := by
  intro a
  induction a generalizing t with
  | nil => intro h; exact Or.inr (Or.inl h)
  | cons x a ih =>
    intro h
    obtain ⟨u, v, huv⟩ := h
    rcases u with _ | ⟨y, u'⟩
    · have hpre : t <+: (x :: a) ++ b := ⟨v, huv⟩
      rcases preSplitAppend (x :: a) hpre with h' | ⟨t₂, rfl, h₂⟩
      · obtain ⟨w, hw⟩ := h'
        exact Or.inl ⟨[], w, by simp [hw]⟩
      · rcases t₂ with _ | ⟨z, t₂'⟩
        · exact Or.inl ⟨[], [], by simp⟩
        · exact Or.inr (Or.inr ⟨x :: a, z :: t₂', rfl, by simp, by simp, ⟨[], rfl⟩, h₂⟩)
    · injection huv with h1 h2
      subst h1
      rcases ih ⟨u', v, h2⟩ with h' | h' | ⟨t₁, t₂, heq, hn1, hn2, hs, hp⟩
      · obtain ⟨s, w, hsw⟩ := h'
        exact Or.inl ⟨y :: s, w, by simp [hsw]⟩
      · exact Or.inr (Or.inl h')
      · obtain ⟨s, hs'⟩ := hs
        exact Or.inr (Or.inr ⟨t₁, t₂, heq, hn1, hn2, ⟨y :: s, by simp [hs']⟩, hp⟩)

theorem allSeqNotAcross (L M R : List Char)
    (hhead : M.head? = some ' ') (hA : 'A' ∉ M)
    (hL : ¬ (['A', 'L', 'L'] <:+: L)) (hR : ¬ (['A', 'L', 'L'] <:+: R)) :
    ¬ (['A', 'L', 'L'] <:+: L ++ (M ++ R)) := by
  intro h
  rcases occSplitAppend L h with h' | h' | ⟨t₁, t₂, heq, hn1, hn2, hs, hp⟩
  · exact hL h'
  · rcases occSplitAppend M h' with h2 | h2 | ⟨s₁, s₂, heq2, hm1, hm2, hss, hpp⟩
    · exact hA (h2.subset (by decide))
    · exact hR h2
    · rcases s₁ with _ | ⟨c, s₁'⟩
      · exact hm1 rfl
      · injection heq2 with hc _
        obtain ⟨w, hw⟩ := hss
        rw [← hw, ← hc] at hA
        exact hA (by simp)
  · rcases t₁ with _ | ⟨a, t₁'⟩
    · exact hn1 rfl
    · injection heq with _ heq'
      have ht₂ : ∃ rest, t₂ = 'L' :: rest := by
        rcases t₁' with _ | ⟨b, t₁''⟩
        · exact ⟨['L'], by simpa using heq'.symm⟩
        · injection heq' with _ heq''
          rcases t₁'' with _ | ⟨d, t₁'''⟩
          · exact ⟨[], by simpa using heq''.symm⟩
          · injection heq'' with _ heq'''
            rcases t₂ with _ | _
            · exact absurd rfl hn2
            · simp at heq'''
      obtain ⟨rest, hrest⟩ := ht₂
      subst hrest
      obtain ⟨w, hw⟩ := hp
      rcases M with _ | ⟨m, M'⟩
      · exact Option.noConfusion hhead
      · injection hhead with hm
        rw [hm] at hw
        injection hw with hc _
        exact absurd hc (by decide)

/-- C4 counterexample: the claim also asserts that `"ALL"` never occurs in
the output of an `All = false` set operation, but an operand whose own
render contains `"ALL"` (here a projection item rendering as `ALL`) makes
it occur. -/
theorem C4_counterexample :
    (SQLSetExpr.SetOperationExpr .UnionOperator false
      (.SelectExpr (SQLSelect.mk false [.UnnamedExpression ⟨"ALL"⟩] none [] none [] none))
      (.SelectExpr (SQLSelect.mk false [.UnnamedExpression ⟨"x"⟩] none [] none [] none))).Eval
      = "SELECT ALL UNION SELECT x"
    ∧ (['A', 'L', 'L'] <:+: ("SELECT ALL UNION SELECT x").data) := by
  constructor
  · rw [SQLSetExpr.Eval, SQLSetExpr.Eval, SQLSetExpr.Eval, select_eval_unfold,
      select_eval_unfold]
    simp [joinSep, concatAll, SQLSelectItem.Eval, ASTNode.Eval, SQLSetOperator.Eval]
  · exact ⟨"SELECT ".data, " UNION SELECT x".data, by decide⟩

/-- C4 (amended): for every `SetOperationExpr` with `All = false`, the output
is the left operand's render, one space, the operator token, one space, and
the right operand's render; the operation itself never contributes an `ALL`:
whenever `"ALL"` occurs in neither operand's render, it does not occur in the
output. -/
theorem C4_amended_no_all (op : SQLSetOperator) (l r : SQLSetExpr) :
    (SQLSetExpr.SetOperationExpr op false l r).Eval
      = l.Eval ++ " " ++ op.Eval ++ " " ++ r.Eval
    ∧ (¬ (['A', 'L', 'L'] <:+: l.Eval.data) →
       ¬ (['A', 'L', 'L'] <:+: r.Eval.data) →
       ¬ (['A', 'L', 'L'] <:+:
          (SQLSetExpr.SetOperationExpr op false l r).Eval.data)) := by
  have he : (SQLSetExpr.SetOperationExpr op false l r).Eval
      = l.Eval ++ " " ++ op.Eval ++ " " ++ r.Eval := by
    rw [SQLSetExpr.Eval]
    simp
  refine ⟨he, fun hl hr => ?_⟩
  rw [he]
  have hd : (l.Eval ++ " " ++ op.Eval ++ " " ++ r.Eval).data
      = l.Eval.data ++ ((" " ++ op.Eval ++ " ").data ++ r.Eval.data) := by
    simp [String.data_append, List.append_assoc]
  rw [hd]
  exact allSeqNotAcross _ _ _ (by cases op <;> rfl) (by cases op <;> decide) hl hr

/-- C4 witness: the amended statement applied to `SELECT x UNION SELECT y`,
with the no-`ALL` side conditions discharged concretely. -/
theorem C4_amended_no_all_witness :
    (SQLSetExpr.SetOperationExpr .UnionOperator false
        (.SelectExpr (SQLSelect.mk false [.UnnamedExpression ⟨"x"⟩] none [] none [] none))
        (.SelectExpr (SQLSelect.mk false [.UnnamedExpression ⟨"y"⟩] none [] none [] none))).Eval
      = (SQLSetExpr.SelectExpr
          (SQLSelect.mk false [.UnnamedExpression ⟨"x"⟩] none [] none [] none)).Eval
        ++ " " ++ SQLSetOperator.UnionOperator.Eval ++ " "
        ++ (SQLSetExpr.SelectExpr
          (SQLSelect.mk false [.UnnamedExpression ⟨"y"⟩] none [] none [] none)).Eval
    ∧ ¬ (['A', 'L', 'L'] <:+:
        (SQLSetExpr.SetOperationExpr .UnionOperator false
          (.SelectExpr (SQLSelect.mk false [.UnnamedExpression ⟨"x"⟩] none [] none [] none))
          (.SelectExpr (SQLSelect.mk false [.UnnamedExpression ⟨"y"⟩] none [] none [] none))).Eval.data) := by
  have e1 : (SQLSetExpr.SelectExpr
      (SQLSelect.mk false [.UnnamedExpression ⟨"x"⟩] none [] none [] none)).Eval
      = "SELECT x" := by
    rw [SQLSetExpr.Eval, select_eval_unfold]
    simp [joinSep, concatAll, SQLSelectItem.Eval, ASTNode.Eval]
  have e2 : (SQLSetExpr.SelectExpr
      (SQLSelect.mk false [.UnnamedExpression ⟨"y"⟩] none [] none [] none)).Eval
      = "SELECT y" := by
    rw [SQLSetExpr.Eval, select_eval_unfold]
    simp [joinSep, concatAll, SQLSelectItem.Eval, ASTNode.Eval]
  have h1 : ¬ (['A', 'L', 'L'] <:+:
      (SQLSetExpr.SelectExpr
        (SQLSelect.mk false [.UnnamedExpression ⟨"x"⟩] none [] none [] none)).Eval.data) := by
    rw [e1]; decide
  have h2 : ¬ (['A', 'L', 'L'] <:+:
      (SQLSetExpr.SelectExpr
        (SQLSelect.mk false [.UnnamedExpression ⟨"y"⟩] none [] none [] none)).Eval.data) := by
    rw [e2]; decide
  exact ⟨(C4_amended_no_all .UnionOperator _ _).1,
    (C4_amended_no_all .UnionOperator _ _).2 h1 h2⟩

/-- C10 witness: a select with one implicit join and no relation. -/
theorem C10_joins_without_relation_witness :
    ([Join.mk (.Table ["u"] none [] []) Implicit .NaturalConstant] ≠ ([] : List Join))
    ∧ (SQLSelect.mk false [.Wildcard] none
        [Join.mk (.Table ["u"] none [] []) Implicit .NaturalConstant]
        none [] none).Eval =
      "SELECT "
      ++ (if false then "DISTINCT " else "")
      ++ joinSep ", " ([SQLSelectItem.Wildcard].map SQLSelectItem.Eval)
      ++ concatAll ([Join.mk (.Table ["u"] none [] []) Implicit .NaturalConstant].map Join.Eval)
      ++ (match (none : Option ASTNode) with | some p => " WHERE " ++ p.Eval | none => "")
      ++ (if ([] : List ASTNode) ≠ [] then " GROUP BY " ++ joinSep ", " (([] : List ASTNode).map ASTNode.Eval) else "")
      ++ (match (none : Option ASTNode) with | some h => " HAVING " ++ h.Eval | none => "") :=
  ⟨by simp,
    C10_joins_without_relation false [.Wildcard]
      [Join.mk (.Table ["u"] none [] []) Implicit .NaturalConstant]
      none [] none (by simp)⟩

end Sqlast
